import Mathlib

/-!
Shallow embedding of the acquisition/protocol core of
PARABOLIC_PROFILE_ANALYZER_PLC_BASED (src/MAIN.py) and proofs about it.

Modelling conventions:
* Python floats are modelled as rationals (ℚ); all numeric operations the
  claims mention (division by a positive scale factor, subtraction) are exact
  on the values involved.
* The Modbus client is modelled as a `Device`: an oracle mapping addresses to
  replies.  A reply of `none` stands for an error response (`r.isError()`)
  or a timeout; holding-register replies carry 16-bit words (`Fin 65536`),
  matching the wire decoding performed by the protocol library.
* Side effects on the serial link are made explicit: each access function
  also returns the list of protocol operations it issues.
* Python `None` is modelled as `Option.none`; a GUI table cell holding the
  empty string `""` (the "undefined" sentinel of `update_table`) is modelled
  as `Option.none` on the cell type, which is distinct from `some 0` by
  constructor disjointness.
-/

/-- The register type tags selectable in the configuration UI
(src/MAIN.py line 403: the combo box offers exactly "D", "M", "X", "Y",
"C", "T"), as a closed enumeration. -/
inductive RegType
  | D
  | M
  | X
  | Y
  | C
  | T
deriving DecidableEq, Repr

/-- The three register kinds of the spec data model: the tag mapping is
D/C/T → HoldingWord, M/Y → Coil, X → DiscreteInput. -/
inductive RegKind
  | HoldingWord
  | Coil
  | DiscreteInput
deriving DecidableEq, Repr

/-- Kind of a type tag, following the dispatch of read_plc
(src/MAIN.py lines 100-110). -/
def RegType.kind : RegType → RegKind
  | .D => .HoldingWord
  | .C => .HoldingWord
  | .T => .HoldingWord
  | .M => .Coil
  | .Y => .Coil
  | .X => .DiscreteInput

/-- A logical register reference: the dictionaries of CONFIG such as
x_encoder with fields "type" and "addr" (src/MAIN.py lines 46-55). -/
structure Reg where
  type : RegType
  addr : Nat
deriving DecidableEq, Repr

/-- A value decoded from a Modbus reply: either a 16-bit holding-register
word (r.registers[0]) or a single bit (r.bits[0]). -/
inductive RegValue
  | word (w : Fin 65536)
  | bit (b : Bool)
deriving DecidableEq, Repr

/-- A protocol operation issued on the serial link, with the arguments the
code passes (count is always 1; write_coil always writes True). -/
inductive ProtoOp
  | readHolding (addr count : Nat)
  | readCoils (addr count : Nat)
  | readDiscrete (addr count : Nat)
  | writeCoil (addr : Nat) (value : Bool)
deriving DecidableEq, Repr

/-- The device on the other end of the serial link, as an oracle: for each
address space, the reply a single-item read at that address produces.
`none` models an error reply (r.isError()) or timeout. -/
structure Device where
  holding : Nat → Option (Fin 65536)
  coils : Nat → Option Bool
  discrete : Nat → Option Bool

/-- read_plc (src/MAIN.py lines 94-112).  Returns the decoded value (None on
error or when disconnected) together with the list of protocol operations
issued on the link.  When not connected it returns None immediately, before
touching the client; otherwise it dispatches on the type tag:
D/C/T → read_holding_registers(a, 1), M/Y → read_coils(a, 1),
X → read_discrete_inputs(a, 1), and an error reply yields None. -/
def read_plc (connected : Bool) (dev : Device) (reg : Reg) :
    Option RegValue × List ProtoOp :=
  if connected = false then (none, [])
  else
    match reg.type with
    | .D => ((dev.holding reg.addr).map RegValue.word, [ProtoOp.readHolding reg.addr 1])
    | .C => ((dev.holding reg.addr).map RegValue.word, [ProtoOp.readHolding reg.addr 1])
    | .T => ((dev.holding reg.addr).map RegValue.word, [ProtoOp.readHolding reg.addr 1])
    | .M => ((dev.coils reg.addr).map RegValue.bit, [ProtoOp.readCoils reg.addr 1])
    | .Y => ((dev.coils reg.addr).map RegValue.bit, [ProtoOp.readCoils reg.addr 1])
    | .X => ((dev.discrete reg.addr).map RegValue.bit, [ProtoOp.readDiscrete reg.addr 1])

/-- True exactly for the tags M and Y, the Python test
reg["type"] in ["M", "Y"] used by write_plc_bit. -/
def isCoilTag : RegType → Bool
  | .M => true
  | .Y => true
  | _ => false

/-- write_plc_bit (src/MAIN.py lines 115-117): issues write_coil(addr, True)
only when connected and the tag is M or Y; otherwise it does nothing.
The result is the list of protocol operations issued. -/
def write_plc_bit (connected : Bool) (reg : Reg) : List ProtoOp :=
  if connected && isCoilTag reg.type then [ProtoOp.writeCoil reg.addr true]
  else []

/-- One entry of serial.tools.list_ports.comports(): the device name and the
human-readable description. -/
structure PortInfo where
  device : String
  description : String
deriving DecidableEq, Repr

/-- Python substring containment (the `in` operator on strings), on lists of
characters: some drop of the haystack starts with the needle. -/
def strContains (hay needle : List Char) : Bool :=
  (List.range (hay.length + 1)).any fun i => needle.isPrefixOf (hay.drop i)

/-- The port filter of auto_port (src/MAIN.py line 70):
"USB" in p.description or "Serial" in p.description.  The `in` operator of
Python is case-sensitive. -/
def portMatches (description : List Char) : Bool :=
  strContains description "USB".toList || strContains description "Serial".toList

/-- auto_port (src/MAIN.py lines 68-72): the first listed port whose
description contains "USB" or "Serial", None when no port matches. -/
def auto_port (ports : List PortInfo) : Option String :=
  (ports.find? fun p => portMatches p.description.toList).map fun p => p.device

/-- Modelled from the spec: the case-INSENSITIVE matcher the spec's
discoverPort describes ("case-insensitive substring match against a small
allow-list, e.g. \"USB\", \"Serial\"").  Present only to compare with
portMatches, which is what the code does. -/
def portMatchesCI (description : List Char) : Bool :=
  strContains (description.map Char.toLower) ("usb".toList) ||
    strContains (description.map Char.toLower) ("serial".toList)

/-- The CONFIG dictionary (src/MAIN.py lines 43-59): the named register set
plus the baud rate and the two pulses-per-unit scale factors.  The scale
factors are Int because MoreSettingsPage.save stores int(text) with no
further validation. -/
structure Config where
  baudrate : Nat
  x_encoder : Reg
  y_encoder : Reg
  start_bit : Reg
  stop_bit : Reg
  run_bit : Reg
  plot_start_bit : Reg
  x_zero_bit : Reg
  y_zero_bit : Reg
  x_ppr : Int
  y_ppr : Int
deriving DecidableEq, Repr

/-- The default CONFIG values (src/MAIN.py lines 43-59). -/
def defaultConfig : Config where
  baudrate := 9600
  x_encoder := ⟨.D, 100⟩
  y_encoder := ⟨.D, 102⟩
  start_bit := ⟨.M, 10⟩
  stop_bit := ⟨.M, 11⟩
  run_bit := ⟨.M, 12⟩
  plot_start_bit := ⟨.M, 13⟩
  x_zero_bit := ⟨.M, 30⟩
  y_zero_bit := ⟨.M, 31⟩
  x_ppr := 1000
  y_ppr := 1000

/-- Decimal digit value of a character, none for a non-digit. -/
def digitVal (c : Char) : Option Nat :=
  if c.isDigit then some (c.toNat - 48) else none

/-- Parse a non-empty run of decimal digits to a natural number. -/
def parseNatDigits (cs : List Char) : Option Nat :=
  if cs.isEmpty then none
  else
    cs.foldl
      (fun acc c =>
        match acc, digitVal c with
        | some n, some d => some (n * 10 + d)
        | _, _ => none)
      (some 0)

/-- The Python built-in int() on a string, restricted to the forms the
claims exercise: an optional sign followed by decimal digits.  A parse
failure (Python ValueError) is none. -/
def pyInt (s : String) : Option Int :=
  match s.toList with
  | '-' :: rest => (parseNatDigits rest).map fun n => -(n : Int)
  | '+' :: rest => (parseNatDigits rest).map fun n => (n : Int)
  | cs => (parseNatDigits cs).map fun n => (n : Int)

/-- MoreSettingsPage.save (src/MAIN.py lines 455-457): parses the two text
fields with int() and assigns them into CONFIG unconditionally - there is no
sign, zero or range check anywhere on the path.  A parse failure (Python
ValueError) is modelled by none. -/
def moreSettingsSave (cfg : Config) (xp yp : String) : Option Config :=
  match pyInt xp, pyInt yp with
  | some x, some y => some { cfg with x_ppr := x, y_ppr := y }
  | _, _ => none

/-- Numeric coercion applied to a decoded register value when it enters the
arithmetic of the tick (Python arithmetic treats True as 1 and False as 0;
in the intended configuration the encoders are words, so this is just the
word value). -/
def rawToRat : RegValue → ℚ
  | .word w => (w.val : ℚ)
  | .bit b => if b then 1 else 0

/-- The mutable state of LivePage relevant to the claims: the reference
sequence and the measurement history, each kept as two parallel Python
lists (src/MAIN.py line 277). -/
structure LiveState where
  ref_x : List ℚ
  ref_y : List ℚ
  act_x : List ℚ
  act_y : List ℚ
deriving DecidableEq, Repr

/-- One timer tick: LivePage.read_plc (src/MAIN.py lines 339-358).  Reads
the x-encoder, the y-encoder and the run bit through the module-level
read_plc; if either encoder read returned None the method returns with no
mutation; otherwise it appends xr / x_ppr and yr / y_ppr to the history.
The run-bit value only drives a label, so it does not appear in the state.
The method is total: no exception path exists on the abandoned branch. -/
def tick (cfg : Config) (connected : Bool) (dev : Device) (s : LiveState) :
    LiveState :=
  let xr := (read_plc connected dev cfg.x_encoder).1
  let yr := (read_plc connected dev cfg.y_encoder).1
  match xr, yr with
  | some xv, some yv =>
      { s with
        act_x := s.act_x ++ [rawToRat xv / (cfg.x_ppr : ℚ)]
        act_y := s.act_y ++ [rawToRat yv / (cfg.y_ppr : ℚ)] }
  | _, _ => s

/-- A sequence of ticks, one per timer timeout, each with its own connection
state and device behaviour. -/
def runTicks (cfg : Config) (inputs : List (Bool × Device)) (s : LiveState) :
    LiveState :=
  inputs.foldl (fun st i => tick cfg i.1 i.2 st) s

/-- One row of the deviation table, as update_table fills it: each cell is
either a number or the empty-string sentinel "" (modelled none). -/
structure DeviationRow where
  ref_x : Option ℚ
  ref_y : Option ℚ
  act_x : Option ℚ
  act_y : Option ℚ
  diff_x : Option ℚ
  diff_y : Option ℚ
deriving DecidableEq, Repr

/-- The difference cell: ax - rx when both operands are numbers, the ""
sentinel otherwise (src/MAIN.py lines 380-381). -/
def diffCell : Option ℚ → Option ℚ → Option ℚ
  | some a, some r => some (a - r)
  | _, _ => none

/-- Row i of the table as LivePage.update_table computes it
(src/MAIN.py lines 374-388): each source cell is the list element when the
index is in range and "" otherwise. -/
def deviationRow (s : LiveState) (i : Nat) : DeviationRow where
  ref_x := s.ref_x[i]?
  ref_y := s.ref_y[i]?
  act_x := s.act_x[i]?
  act_y := s.act_y[i]?
  diff_x := diffCell s.act_x[i]? s.ref_x[i]?
  diff_y := diffCell s.act_y[i]? s.ref_y[i]?

/-- LivePage.update_table (src/MAIN.py lines 370-388): the table has
max(len(ref_x), len(act_x)) rows, row i computed by deviationRow. -/
def update_table (s : LiveState) : List DeviationRow :=
  (List.range (max s.ref_x.length s.act_x.length)).map (deviationRow s)

/-- A two-column CSV file as a header row plus data rows.  Numeric cells are
kept as the numbers themselves: the default float serialization of pandas
round-trips a float exactly, so to_csv / read_csv act as identity on each
cell value. -/
structure CsvTable where
  header : List String
  rows : List (List ℚ)
deriving DecidableEq, Repr

/-- CreateProfileDialog.save_csv (src/MAIN.py lines 170-178): refuses an
empty profile (warning dialog, no file written - modelled none); otherwise
writes DataFrame with columns Reference_X, Reference_Y, no index.
Constructing the DataFrame from columns of different lengths raises in
pandas; that error path is also modelled none. -/
def save_csv (rx ry : List ℚ) : Option CsvTable :=
  if rx.isEmpty then none
  else if rx.length ≠ ry.length then none
  else some ⟨["Reference_X", "Reference_Y"],
             List.zipWith (fun a b => [a, b]) rx ry⟩

/-- The CSV branch of MainWindow.open_file (src/MAIN.py lines 240-242):
pd.read_csv takes the first line as the header, and the two reference lists
are column 0 and column 1 of the data rows. -/
def open_file_csv (t : CsvTable) : List ℚ × List ℚ :=
  (t.rows.map fun r => r.getD 0 0, t.rows.map fun r => r.getD 1 0)

/-- A concrete device for witnesses: the x-encoder word at address 100 reads
500, the y-encoder word at address 102 reads 250, the run coil at address 12
reads true; every other access is an error reply. -/
def devW : Device where
  holding := fun a =>
    if a = 100 then some ⟨500, by norm_num⟩
    else if a = 102 then some ⟨250, by norm_num⟩ else none
  coils := fun a => if a = 12 then some true else none
  discrete := fun _ => none

/-- A concrete device for witnesses on which every access is an error
reply. -/
def devNone : Device where
  holding := fun _ => none
  coils := fun _ => none
  discrete := fun _ => none

/-- The empty LivePage state: no reference, no history. -/
def live0 : LiveState := ⟨[], [], [], []⟩

/-- The scenario state of the spec: reference sequence [(0,0), (1,2)],
measurement history [(0.1, 0.1)]. -/
def liveW : LiveState := ⟨[0, 1], [0, 2], [1/10], [1/10]⟩


/-- Claim C4: a readLogical issued while the connection state is
Disconnected returns no data (None) and issues no protocol operation on
the link, for every register reference. -/
theorem read_plc_disconnected (dev : Device) (reg : Reg) :
    read_plc false dev reg = (none, []) := rfl

/-- Claim C1: a tick in which the x-encoder read or the y-encoder read
returns None leaves the measurement history (both the actual-X and the
actual-Y sequences) unchanged in length and contents.  No error is
surfaced: tick is a total function into LiveState with no error
component. -/
theorem tick_abandoned (cfg : Config) (conn : Bool) (dev : Device) (s : LiveState)
    (h : (read_plc conn dev cfg.x_encoder).1 = none ∨
         (read_plc conn dev cfg.y_encoder).1 = none) :
    (tick cfg conn dev s).act_x = s.act_x ∧ (tick cfg conn dev s).act_y = s.act_y := by
  unfold tick
  rcases h with h | h
  · simp [h]
  · cases hx : (read_plc conn dev cfg.x_encoder).1 <;> simp [h, hx]

/-- Witness for tick_abandoned: a connected tick against a device whose
every reply is an error leaves the nonempty history of the scenario state
untouched. -/
theorem tick_abandoned_witness :
    (tick defaultConfig true devNone liveW).act_x = liveW.act_x ∧
    (tick defaultConfig true devNone liveW).act_y = liveW.act_y :=
  tick_abandoned defaultConfig true devNone liveW (Or.inl rfl)

/-- Claim C2: a tick in which both encoder reads succeed appends
raw_x / x_ppr to the actual-X history and raw_y / y_ppr to the actual-Y
history. -/
theorem tick_appends (cfg : Config) (conn : Bool) (dev : Device) (s : LiveState)
    (xv yv : RegValue)
    (hx : (read_plc conn dev cfg.x_encoder).1 = some xv)
    (hy : (read_plc conn dev cfg.y_encoder).1 = some yv) :
    (tick cfg conn dev s).act_x = s.act_x ++ [rawToRat xv / (cfg.x_ppr : ℚ)] ∧
    (tick cfg conn dev s).act_y = s.act_y ++ [rawToRat yv / (cfg.y_ppr : ℚ)] := by
  unfold tick
  simp [hx, hy]

/-- Witness for tick_appends, instantiating the scenario of the spec:
x_ppr = 1000, y_ppr = 1000 (the defaults), raw reads x = 500, y = 250 give
appended values 0.5 and 0.25. -/
theorem tick_appends_witness :
    (tick defaultConfig true devW live0).act_x = [(1 : ℚ)/2] ∧
    (tick defaultConfig true devW live0).act_y = [(1 : ℚ)/4] := by
  have h := tick_appends defaultConfig true devW live0
    (RegValue.word ⟨500, by norm_num⟩) (RegValue.word ⟨250, by norm_num⟩) rfl rfl
  refine ⟨h.1.trans ?_, h.2.trans ?_⟩ <;> norm_num [rawToRat, live0, defaultConfig]

/-- Claim C3: the deviation table has one row for every index present in
either sequence; at row i the difference cells hold actual - reference
exactly when both operands exist at i, and the empty-string sentinel
(modelled none) otherwise.  The sentinel is a distinct Option constructor,
so it is distinguishable from some 0 and is not a number at all (no NaN
involved). -/
theorem update_table_cells (s : LiveState) (i : Nat)
    (hi : i < max s.ref_x.length s.act_x.length) :
    (update_table s).length = max s.ref_x.length s.act_x.length ∧
    (update_table s)[i]? = some (deviationRow s i) ∧
    (∀ av rv, s.act_x[i]? = some av → s.ref_x[i]? = some rv →
      (deviationRow s i).diff_x = some (av - rv)) ∧
    (∀ av rv, s.act_y[i]? = some av → s.ref_y[i]? = some rv →
      (deviationRow s i).diff_y = some (av - rv)) ∧
    (s.act_x[i]? = none ∨ s.ref_x[i]? = none → (deviationRow s i).diff_x = none) ∧
    (s.act_y[i]? = none ∨ s.ref_y[i]? = none → (deviationRow s i).diff_y = none) := by
  refine ⟨by simp [update_table], ?_, ?_, ?_, ?_, ?_⟩
  · simp [update_table, List.getElem?_map, List.getElem?_range, hi]
  · intro av rv hav hrv
    simp [deviationRow, diffCell, hav, hrv]
  · intro av rv hav hrv
    simp [deviationRow, diffCell, hav, hrv]
  · rintro (hn | hn) <;> cases ho : s.ref_x[i]? <;>
      cases ha : s.act_x[i]? <;> simp [deviationRow, diffCell, hn, ho, ha]
  · rintro (hn | hn) <;> cases ho : s.ref_y[i]? <;>
      cases ha : s.act_y[i]? <;> simp [deviationRow, diffCell, hn, ho, ha]

/-- Witness for update_table_cells, instantiating the scenario of the
spec: reference [(0,0), (1,2)] with history [(0.1, 0.1)] gives
diff_x = 0.1 at index 0 and the undefined sentinel at index 1. -/
theorem update_table_cells_witness :
    (deviationRow liveW 0).diff_x = some ((1 : ℚ)/10) ∧
    (deviationRow liveW 1).diff_x = none := by
  have h0 := update_table_cells liveW 0 (by decide)
  have h1 := update_table_cells liveW 1 (by decide)
  refine ⟨?_, h1.2.2.2.2.1 (Or.inl rfl)⟩
  have := h0.2.2.1 (1/10) 0 rfl rfl
  simpa using this

/-- A successful holding-register read decodes to a word in 0..65535. -/
theorem exists_word_of_map (o : Option (Fin 65536)) (v : RegValue)
    (h : o.map RegValue.word = some v) :
    ∃ w : Fin 65536, v = RegValue.word w ∧ w.val ≤ 65535 := by
  obtain ⟨w, -, rfl⟩ := Option.map_eq_some'.mp h
  exact ⟨w, rfl, Nat.le_of_lt_succ w.isLt⟩

/-- A successful bit read decodes to a boolean. -/
theorem exists_bit_of_map (o : Option Bool) (v : RegValue)
    (h : o.map RegValue.bit = some v) : ∃ b : Bool, v = RegValue.bit b := by
  obtain ⟨b, -, rfl⟩ := Option.map_eq_some'.mp h
  exact ⟨b, rfl⟩

/-- Claim C5: a connected readLogical dispatches by the kind of the type
tag.  HoldingWord tags (D, C, T) issue a single holding-register read at
the given address, and a successful read yields a word in 0..65535; Coil
tags (M, Y) issue a single coil read yielding a boolean; the
DiscreteInput tag (X) issues a single discrete-input read yielding a
boolean.  In every case an error reply from the device yields None - the
return type has no exception path. -/
theorem read_plc_connected_dispatch (dev : Device) (reg : Reg) :
    (reg.type.kind = RegKind.HoldingWord →
      (read_plc true dev reg).2 = [ProtoOp.readHolding reg.addr 1] ∧
      (∀ v, (read_plc true dev reg).1 = some v →
        ∃ w : Fin 65536, v = RegValue.word w ∧ w.val ≤ 65535) ∧
      (dev.holding reg.addr = none → (read_plc true dev reg).1 = none)) ∧
    (reg.type.kind = RegKind.Coil →
      (read_plc true dev reg).2 = [ProtoOp.readCoils reg.addr 1] ∧
      (∀ v, (read_plc true dev reg).1 = some v → ∃ b : Bool, v = RegValue.bit b) ∧
      (dev.coils reg.addr = none → (read_plc true dev reg).1 = none)) ∧
    (reg.type.kind = RegKind.DiscreteInput →
      (read_plc true dev reg).2 = [ProtoOp.readDiscrete reg.addr 1] ∧
      (∀ v, (read_plc true dev reg).1 = some v → ∃ b : Bool, v = RegValue.bit b) ∧
      (dev.discrete reg.addr = none → (read_plc true dev reg).1 = none)) := by
  obtain ⟨t, a⟩ := reg
  cases t <;> refine ⟨fun hk => ?_, fun hk => ?_, fun hk => ?_⟩ <;>
    first
      | (exfalso; revert hk; simp [RegType.kind]; done)
      | · refine ⟨rfl, fun v hv => ?_, fun hn => by simp [read_plc, hn]⟩
          first
            | exact exists_word_of_map _ _ (by simpa [read_plc] using hv)
            | exact exists_bit_of_map _ _ (by simpa [read_plc] using hv)

/-- Witness for read_plc_connected_dispatch at the default x-encoder
register (tag D, address 100): the operation issued is a single
holding-register read. -/
theorem read_plc_dispatch_witness :
    (read_plc true devW ⟨RegType.D, 100⟩).2 = [ProtoOp.readHolding 100 1] :=
  ((read_plc_connected_dispatch devW ⟨RegType.D, 100⟩).1 rfl).1

/-- Claim C8: write_plc_bit writes logical true to the addressed coil
exactly when connected and the register kind is Coil; for a non-coil kind
it issues no protocol operation at all, and when disconnected it silently
does nothing for every register. -/
theorem write_plc_bit_spec (conn : Bool) (reg : Reg) :
    (conn = true → reg.type.kind = RegKind.Coil →
      write_plc_bit conn reg = [ProtoOp.writeCoil reg.addr true]) ∧
    (reg.type.kind ≠ RegKind.Coil → write_plc_bit conn reg = []) ∧
    (conn = false → write_plc_bit conn reg = []) := by
  obtain ⟨t, a⟩ := reg
  cases conn <;> cases t <;> simp [write_plc_bit, isCoilTag, RegType.kind]

/-- Witness for write_plc_bit_spec: connected, at the default x-zero coil
address 30, the single issued operation writes true. -/
theorem write_plc_bit_witness :
    write_plc_bit true ⟨RegType.M, 30⟩ = [ProtoOp.writeCoil 30 true] :=
  (write_plc_bit_spec true ⟨RegType.M, 30⟩).1 rfl rfl

/-- A single tick preserves equality of the two history lengths. -/
theorem tick_len_eq (cfg : Config) (conn : Bool) (dev : Device) (s : LiveState)
    (h : s.act_x.length = s.act_y.length) :
    (tick cfg conn dev s).act_x.length = (tick cfg conn dev s).act_y.length := by
  unfold tick
  cases hx : (read_plc conn dev cfg.x_encoder).1 <;>
    cases hy : (read_plc conn dev cfg.y_encoder).1 <;> simp [h]

/-- Claim C10: the two history lists stay the same length across any
sequence of ticks, because each tick either appends exactly one value to
each list (both encoder reads succeeded) or appends to neither. -/
theorem ticks_length_invariant (cfg : Config) (inputs : List (Bool × Device))
    (s : LiveState) (h : s.act_x.length = s.act_y.length) :
    (runTicks cfg inputs s).act_x.length = (runTicks cfg inputs s).act_y.length ∧
    ∀ conn dev,
      ((tick cfg conn dev s).act_x.length = s.act_x.length + 1 ∧
       (tick cfg conn dev s).act_y.length = s.act_y.length + 1) ∨
      ((tick cfg conn dev s).act_x = s.act_x ∧
       (tick cfg conn dev s).act_y = s.act_y) := by
  constructor
  · induction inputs generalizing s with
    | nil => exact h
    | cons i is ih =>
      have hstep := tick_len_eq cfg i.1 i.2 s h
      simpa [runTicks, List.foldl] using ih (tick cfg i.1 i.2 s) hstep
  · intro conn dev
    unfold tick
    cases hx : (read_plc conn dev cfg.x_encoder).1 <;>
      cases hy : (read_plc conn dev cfg.y_encoder).1 <;> simp

/-- Witness for ticks_length_invariant: one successful tick followed by
one abandoned tick, starting from the empty history. -/
theorem ticks_length_invariant_witness :
    (runTicks defaultConfig [(true, devW), (true, devNone)] live0).act_x.length =
      (runTicks defaultConfig [(true, devW), (true, devNone)] live0).act_y.length :=
  (ticks_length_invariant defaultConfig [(true, devW), (true, devNone)] live0 rfl).1

/-- Counterexample to claim C6: a configuration update supplying the text
"0" for x_ppr is not rejected - MoreSettingsPage.save applies it, so the
resulting configuration has x_ppr = 0 and differs from the previously
active one.  No InvalidScaleFactor (or any other) validation exists in the
code. -/
theorem moreSettingsSave_zero_applied_cex :
    moreSettingsSave defaultConfig "0" "1000" =
      some { defaultConfig with x_ppr := 0 } ∧
    ({ defaultConfig with x_ppr := 0 } : Config) ≠ defaultConfig := by
  constructor <;> decide

/-- Claim C6 as amended: whenever both text fields parse as integers,
MoreSettingsPage.save applies them to the configuration unconditionally -
zero and negative scale factors included; there is no validation and no
error result. -/
theorem moreSettingsSave_applies (cfg : Config) (xp yp : String) (x y : Int)
    (hx : pyInt xp = some x) (hy : pyInt yp = some y) :
    moreSettingsSave cfg xp yp = some { cfg with x_ppr := x, y_ppr := y } := by
  simp [moreSettingsSave, hx, hy]

/-- Witness for moreSettingsSave_applies at the zero scale factor of the
scenario. -/
theorem moreSettingsSave_applies_witness :
    moreSettingsSave defaultConfig "0" "1000" =
      some { defaultConfig with x_ppr := 0, y_ppr := 1000 } :=
  moreSettingsSave_applies defaultConfig "0" "1000" 0 1000 (by decide) (by decide)

/-- Counterexample to claim C7: the description "usb adapter" matches the
case-insensitive heuristic of the spec, yet auto_port rejects the port -
the comparison in the code is case-sensitive. -/
theorem auto_port_case_sensitive_cex :
    portMatchesCI ("usb adapter".toList) = true ∧
    auto_port [⟨"COM7", "usb adapter"⟩] = none := by
  constructor <;> decide

/-- The Boolean substring test agrees with list-infix containment. -/
theorem strContains_iff (hay needle : List Char) :
    strContains hay needle = true ↔ List.IsInfix needle hay := by
  unfold strContains
  simp only [List.any_eq_true, List.mem_range, List.isPrefixOf_iff_prefix]
  constructor
  · rintro ⟨i, -, hpre⟩
    exact hpre.isInfix.trans (List.drop_suffix i hay).isInfix
  · rintro ⟨u, v, rfl⟩
    refine ⟨u.length, by simp only [List.length_append, Nat.lt_succ_iff]; omega, ?_⟩
    rw [List.append_assoc, List.drop_left]
    exact ⟨v, rfl⟩

/-- auto_port on a cons either takes the head or recurses. -/
theorem auto_port_cons (p : PortInfo) (ps : List PortInfo) :
    auto_port (p :: ps) =
      if portMatches p.description.toList then some p.device else auto_port ps := by
  by_cases hp : portMatches p.description.toList <;>
    simp only [String.toList] at hp <;>
    simp [auto_port, List.find?_cons, hp]

/-- Claim C7 as amended: auto_port returns the device of the first listed
port whose description contains "USB" or "Serial" as a CASE-SENSITIVE
substring (the match in the code is not case-insensitive), and none - a
normal, non-exceptional value - when no description matches. -/
theorem auto_port_first_match (ports : List PortInfo) :
    (∀ dsc : List Char, portMatches dsc = true ↔
      (List.IsInfix ("USB".toList) dsc ∨ List.IsInfix ("Serial".toList) dsc)) ∧
    (auto_port ports = none ↔
      ∀ p ∈ ports, portMatches p.description.toList = false) ∧
    (∀ d, auto_port ports = some d →
      ∃ l1 p l2, ports = l1 ++ p :: l2 ∧ p.device = d ∧
        portMatches p.description.toList = true ∧
        ∀ q ∈ l1, portMatches q.description.toList = false) := by
  refine ⟨?_, ?_, ?_⟩
  · intro dsc
    simp [portMatches, strContains_iff]
  · simp [auto_port, List.find?_eq_none]
  · intro d
    induction ports with
    | nil => intro h; simp [auto_port] at h
    | cons p ps ih =>
      intro h
      rw [auto_port_cons] at h
      by_cases hp : portMatches p.description.toList
      · rw [if_pos hp] at h
        exact ⟨[], p, ps, rfl, (Option.some_injective _ h).symm ▸ rfl, hp, by simp⟩
      · rw [if_neg hp] at h
        obtain ⟨l1, q, l2, hsplit, hd, hq, hnone⟩ := ih h
        refine ⟨p :: l1, q, l2, by simp [hsplit], hd, hq, ?_⟩
        intro r hr
        rcases List.mem_cons.mp hr with rfl | hr
        · simpa using hp
        · exact hnone r hr

/-- Witness for auto_port_first_match: a port list with no matching
description makes auto_port return none. -/
theorem auto_port_first_match_witness :
    auto_port [⟨"COM1", "Bluetooth Device"⟩] = none :=
  ((auto_port_first_match [⟨"COM1", "Bluetooth Device"⟩]).2.1).mpr (by decide)

/-- Column 0 of the two-column rows is the first source list. -/
theorem zip_rows_col0 (rx ry : List ℚ) (h : rx.length = ry.length) :
    (List.zipWith (fun a b => [a, b]) rx ry).map (fun r => r.getD 0 0) = rx := by
  induction rx generalizing ry with
  | nil => simp
  | cons a as ih =>
    cases ry with
    | nil => simp at h
    | cons b bs =>
      simp only [List.zipWith, List.map, List.getD]
      exact congrArg _ (ih bs (by simpa using h))

/-- Column 1 of the two-column rows is the second source list. -/
theorem zip_rows_col1 (rx ry : List ℚ) (h : rx.length = ry.length) :
    (List.zipWith (fun a b => [a, b]) rx ry).map (fun r => r.getD 1 0) = ry := by
  induction rx generalizing ry with
  | nil => cases ry with
    | nil => simp
    | cons b bs => simp at h
  | cons a as ih =>
    cases ry with
    | nil => simp at h
    | cons b bs =>
      simp only [List.zipWith, List.map, List.getD]
      exact congrArg _ (ih bs (by simpa using h))

/-- Claim C9: any table produced by save_csv carries the header labels
Reference_X, Reference_Y, and importing it through the CSV branch of
open_file reproduces the exported (X, Y) pairs exactly. -/
theorem csv_round_trip (rx ry : List ℚ) (t : CsvTable)
    (h : save_csv rx ry = some t) :
    t.header = ["Reference_X", "Reference_Y"] ∧ open_file_csv t = (rx, ry) := by
  unfold save_csv at h
  split_ifs at h with h1 h2
  cases h
  push_neg at h2
  refine ⟨rfl, ?_⟩
  unfold open_file_csv
  rw [zip_rows_col0 rx ry h2, zip_rows_col1 rx ry h2]

/-- Witness for csv_round_trip: the profile [(0,0), (1,2)] exports to the
two-column table and imports back to the original pair of lists. -/
theorem csv_round_trip_witness :
    open_file_csv ⟨["Reference_X", "Reference_Y"], [[0, 0], [1, 2]]⟩ =
      ([(0 : ℚ), 1], [(0 : ℚ), 2]) :=
  (csv_round_trip [0, 1] [0, 2] ⟨["Reference_X", "Reference_Y"], [[0, 0], [1, 2]]⟩
    (by decide)).2
